import Mathlib

/-!
Verification of the multi-agent control-plane core: shallow embedding of the
Coordination Service, Self-Healing Engine, Knowledge Drift & Consensus, and
Agent Lifecycle Manager, with theorems settling the behavioural claims made
about them.

Python floats are modelled as exact rationals (`ℚ`); Python dicts as
insertion-ordered association lists; Python's `max(..., key=f)` (which keeps
the first maximal element) as `pyMaxBy`.
-/

namespace AthenAi

/-! ### Shared helpers: association lists and Python-style max -/

/-- Lookup in an association list (Python `dict.get`). -/
def alookup {β : Type} (l : List (String × β)) (k : String) : Option β :=
  match l.find? (fun p => p.1 = k) with
  | some p => some p.2
  | none => none

/-- Python dict assignment `d[k] = v`: replace in place when the key exists
(insertion order is kept), append at the end otherwise. -/
def dictInsert {β : Type} (k : String) (v : β) : List (String × β) → List (String × β)
  | [] => [(k, v)]
  | p :: rest => if p.1 = k then (k, v) :: rest else p :: dictInsert k v rest

/-- Python `max(xs, key=f)`: `none` on the empty list, otherwise the first
element attaining the maximum of `f` (later elements replace the current best
only on a strictly greater key). -/
def pyMaxBy {α : Type} (f : α → ℚ) : List α → Option α
  | [] => none
  | a :: rest => some (rest.foldl (fun best x => if f x > f best then x else best) a)

/-! ### Coordination Service (src/api/services/coordination.py) -/

/-- Model of `AgentInfo` dataclass: in-memory registry record. -/
structure AgentInfo where
  id : String
  role : String
  capabilities : List String
  workload : ℚ
  perf_score : ℚ
  last_heartbeat : ℚ
deriving DecidableEq

/-- Model of `Task` dataclass supplied per allocation call. -/
structure Task where
  id : String
  type : String
  requirements : List String
  priority : Int
deriving DecidableEq

/-- Model of `CoordinationService` state: the in-memory agent registry `self._agents`. -/
structure CoordState where
  agents : List (String × AgentInfo)
deriving DecidableEq

/-- Model of `register_agent`: builds a fresh `AgentInfo` (workload defaults to 0.0,
`last_heartbeat` to the current time) and stores it under the id, replacing
any previous entry. `now` models `time.time()`. -/
def register_agent (st : CoordState) (agent_id role : String)
    (capabilities : List String) (perf_score : ℚ) (now : ℚ) : CoordState × AgentInfo :=
  let info : AgentInfo :=
    { id := agent_id, role := role, capabilities := capabilities,
      workload := 0, perf_score := perf_score, last_heartbeat := now }
  ({ agents := dictInsert agent_id info st.agents }, info)

/-- Capability filter from `allocate_task`:
`all(req in a.capabilities for req in task.requirements)`. -/
def capable (a : AgentInfo) (t : Task) : Bool :=
  t.requirements.all (fun r => a.capabilities.contains r)

/-- Candidate list of `allocate_task` (registry iteration order preserved). -/
def allocCandidates (st : CoordState) (t : Task) : List AgentInfo :=
  (st.agents.map Prod.snd).filter (fun a => capable a t)

/-- Role bonus of the inner `score` closure of `allocate_task`. -/
def roleBonus (role : String) (priority : Int) : ℚ :=
  if priority ≥ 2 ∧ role = "strategic" then 1/10
  else if priority = 1 ∧ role = "tactical" then 1/20
  else if priority = 0 ∧ role = "operational" then 1/20
  else 0

/-- Inner `score` closure of `allocate_task`:
`sla_weight * (perf_score + role_bonus) - 0.5 * workload - 0.3 * predicted`.
`slaWeight` models `float((sla or {}).get("weight", 1.0))` and `predicted`
the per-agent value of the optional predictor (0.0 when absent). -/
def allocScore (slaWeight : ℚ) (t : Task) (predicted : ℚ) (a : AgentInfo) : ℚ :=
  slaWeight * (a.perf_score + roleBonus a.role t.priority)
    - (1/2) * a.workload - (3/10) * predicted

inductive AllocResult where
  | allocated (agent : AgentInfo)
  | notAllocated
deriving DecidableEq

/-- Model of `allocate_task`: filter capable candidates, pick `max(candidates, key=score)`,
persist an assignment (modelled by returning the chosen agent) and bump the
chosen agent's workload by 0.1 capped at 1.0. No capable candidate yields the
`{"allocated": False, "reason": "no_capable_agent"}` result. -/
def allocate_task (st : CoordState) (t : Task) (slaWeight : ℚ)
    (predict : AgentInfo → ℚ) : AllocResult × CoordState :=
  match pyMaxBy (fun a => allocScore slaWeight t (predict a) a) (allocCandidates st t) with
  | none => (.notAllocated, st)
  | some chosen =>
      (.allocated chosen,
       { agents := dictInsert chosen.id
           { chosen with workload := min 1 (chosen.workload + 1/10) } st.agents })

/-- Per-participant weight in `consensus`:
`(weights or {}).get(pid, max(0.1, a.perf_score * (1.0 - a.workload)))`. -/
def consensusWeight (weights : List (String × ℚ)) (pid : String) (a : AgentInfo) : ℚ :=
  match alookup weights pid with
  | some w => w
  | none => max (1/10) (a.perf_score * (1 - a.workload))

/-- Vote list of `consensus`: unregistered participant ids are skipped. -/
def consensusVotes (st : CoordState) (participants : List String)
    (weights : List (String × ℚ)) : List (String × ℚ) :=
  participants.filterMap (fun pid =>
    (alookup st.agents pid).map (fun a => (pid, consensusWeight weights pid a)))

/-- Sum of the weights of the registered participants. -/
def consensusWeightSum (st : CoordState) (participants : List String)
    (weights : List (String × ℚ)) : ℚ :=
  ((consensusVotes st participants weights).map Prod.snd).sum

/-- Pass decision of `consensus`: `total = sum(w for _, w in votes) or 1.0`
(Python `or` replaces an exactly-zero sum by 1.0), then `passed = total >= 0.5`. -/
def consensus_passed (st : CoordState) (participants : List String)
    (weights : List (String × ℚ)) : Bool :=
  let total0 := consensusWeightSum st participants weights
  let total := if total0 = 0 then 1 else total0
  decide (total ≥ 1/2)

/-! ### Self-Healing Engine (src/api/services/self_healing.py) -/

/-- Model of `Anomaly` dataclass. -/
structure Anomaly where
  metric : String
  value : ℚ
  baseline : ℚ
  zscore : ℚ
  severity : String
  hint : String
deriving DecidableEq

/-- Baseline used by `AnomalyDetector.detect` for metric `k` with value `v`:
`self._baselines.get(k, (v, max(1e-6, abs(v)*0.05)))`. -/
def baselineFor (baselines : List (String × ℚ × ℚ)) (k : String) (v : ℚ) : ℚ × ℚ :=
  match alookup baselines k with
  | some p => p
  | none => (v, max (1/1000000) (|v| * (1/20)))

/-- Loop body of `AnomalyDetector.detect` for one `(k, v)` pair:
`z = 0.0 if sd == 0 else (v - mu) / (sd or 1e-6)` (the `or 1e-6` alternative is
dead since that branch has `sd != 0`), severity "high" when `|z| > 3`,
"medium" when `|z| > 2`, "low" otherwise, and a finding is emitted exactly
when `|z| >= 2`. -/
def detectOne (baselines : List (String × ℚ × ℚ)) (kv : String × ℚ) : Option Anomaly :=
  let k := kv.1
  let v := kv.2
  let mu := (baselineFor baselines k v).1
  let sd := (baselineFor baselines k v).2
  let z : ℚ := if sd = 0 then 0 else (v - mu) / sd
  let sev := if |z| > 3 then "high" else if |z| > 2 then "medium" else "low"
  let hint := if v > mu then "above" else "below"
  if |z| ≥ 2 then some ⟨k, v, mu, z, sev, hint⟩ else none

/-- Model of `AnomalyDetector.detect`: one pass over the metrics dict, collecting the
findings. -/
def detect (baselines : List (String × ℚ × ℚ)) (metrics : List (String × ℚ)) :
    List Anomaly :=
  metrics.filterMap (detectOne baselines)

/-- One recovery action of a `HealingStrategy`. Only `type` and (for `scale`)
`delta` influence execution bookkeeping and rollback; other payload keys
(`target`, `amount`) are constants that no modelled behaviour reads. -/
structure HealAction where
  typ : String
  delta : Int
deriving DecidableEq

/-- Model of `HealingStrategy` dataclass (the free-text `description` is omitted). -/
structure HealingStrategy where
  name : String
  safety_level : String
  cost : ℚ
  actions : List HealAction
deriving DecidableEq

/-- Model of `StrategyLibrary.list()`. -/
def strategyLib : List HealingStrategy :=
  [ ⟨"restart_unhealthy", "high", 2/10, [⟨"docker.restart", 0⟩]⟩,
    ⟨"rollback_config", "medium", 5/10, [⟨"config.rollback", 0⟩]⟩,
    ⟨"scale_service", "medium", 4/10, [⟨"scale", 1⟩]⟩,
    ⟨"rebalance_load", "high", 3/10, [⟨"rebalance", 0⟩]⟩,
    ⟨"throttle_traffic", "low", 1/10, [⟨"rate_limit", 0⟩]⟩,
    ⟨"purge_stuck", "medium", 2/10, [⟨"queue.purge", 0⟩]⟩,
    ⟨"recycle_container", "medium", 3/10, [⟨"docker.recycle", 0⟩]⟩ ]

/-- Model of `StrategyLibrary.get(name)`: first strategy with a matching name. -/
def libGet (name : String) : Option HealingStrategy :=
  strategyLib.find? (fun s => s.name = name)

/-- Model of `StrategySelector._scores` maps a strategy name to its
`(success, attempts)` counters. -/
def successRate (scores : List (String × ℚ × ℚ)) (name : String) : ℚ :=
  match alookup scores name with
  | none => 1/2
  | some (succ, att) => if att = 0 then 1/2 else succ / max 1 att

/-- Model of `StrategySelector.best`: `max(candidates, key=score)` over the empirical
success rates, `None` on an empty candidate list. -/
def selectorBest (scores : List (String × ℚ × ℚ)) (candidates : List String) :
    Option String :=
  pyMaxBy (successRate scores) candidates

/-- Model of `StrategySelector.record_outcome`: `setdefault` then bump `attempts` and,
on success, `success`. -/
def record_outcome (name : String) (success : Bool)
    (scores : List (String × ℚ × ℚ)) : List (String × ℚ × ℚ) :=
  let rec0 := (alookup scores name).getD (0, 0)
  dictInsert name (if success then rec0.1 + 1 else rec0.1, rec0.2 + 1) scores

/-- An entry of `applied_actions` in `RecoveryExecutor.execute`: the action
type, the scale delta (0 for actions that carry none) and the status string. -/
structure AppliedAction where
  typ : String
  delta : Int
  status : String
deriving DecidableEq

/-- An entry of the `rolled` list built by `RecoveryExecutor._rollback`. -/
structure RbEntry where
  typ : String
  delta : Int
  status : String
deriving DecidableEq

/-- Branch dispatch of `RecoveryExecutor._rollback` for one applied action:
`scale` is inverted, the four named idempotent types and every `docker.*`
type roll back as no-ops, and any other type is skipped (not appended). -/
def rollbackOne (a : AppliedAction) : Option RbEntry :=
  if a.typ = "scale" then some ⟨"scale", -a.delta, "ok"⟩
  else if a.typ = "config.rollback" ∨ a.typ = "rebalance" ∨
          a.typ = "rate_limit" ∨ a.typ = "queue.purge" then some ⟨a.typ, 0, "noop"⟩
  else if a.typ.take 7 = "docker." then some ⟨a.typ, 0, "noop"⟩
  else none

/-- Model of `RecoveryExecutor._rollback`: walk the applied actions in reverse. -/
def rollbackList (acts : List AppliedAction) : List RbEntry :=
  acts.reverse.filterMap rollbackOne

/-- Which externally injected adapters are bound in the `context` dict of
`RecoveryExecutor.execute` (absent adapters degrade actions to "simulated"). -/
structure ExecEnv where
  dockerAvailable : Bool
  hasGitops : Bool
  hasScaler : Bool
  hasService : Bool
deriving DecidableEq

/-- Per-action body of the execution loop in `RecoveryExecutor.execute`:
every branch appends exactly one applied-action record that keeps the
action's type (and, for `scale`, its delta); only the status varies with the
bound adapters. -/
def applyAction (env : ExecEnv) (a : HealAction) : AppliedAction :=
  if a.typ.take 7 = "docker." ∧ env.dockerAvailable then ⟨a.typ, 0, "docker"⟩
  else if a.typ = "config.rollback" then
    ⟨a.typ, 0, if env.hasGitops then "ok" else "simulated"⟩
  else if a.typ = "scale" then
    ⟨a.typ, a.delta, if env.hasScaler ∧ env.hasService then "ok" else "simulated"⟩
  else if a.typ = "rebalance" then ⟨a.typ, 0, "simulated"⟩
  else if a.typ = "rate_limit" then ⟨a.typ, 0, "simulated"⟩
  else if a.typ = "queue.purge" then ⟨a.typ, 0, "simulated"⟩
  else ⟨a.typ, 0, "ok"⟩

inductive ExecResult where
  | unknownStrategy
  | dryPlan (strategy : String) (actions : List HealAction)
  | executed (strategy : String) (actions : List AppliedAction)
      (rolledBack : List RbEntry) (applied : Bool) (verified : Bool)
deriving DecidableEq

/-- Model of `RecoveryExecutor.execute`: unknown strategy is a distinguished result;
`dry_run` returns the plan before any action runs; otherwise every action is
applied, the externally supplied verifier decides `verified` (default
accept), and on verification failure the applied actions are rolled back. -/
def execute (env : ExecEnv) (name : String) (dryRun : Bool) (verified : Bool) :
    ExecResult :=
  match libGet name with
  | none => .unknownStrategy
  | some strat =>
    if dryRun then .dryPlan strat.name strat.actions
    else
      let applied := strat.actions.map (applyAction env)
      let rolled := if verified then [] else rollbackList applied
      .executed strat.name applied rolled verified verified

/-- Model of `outcome.get("applied")` as read by `heal` (absent keys read as false). -/
def execApplied : ExecResult → Bool
  | .executed _ _ _ applied _ => applied
  | _ => false

/-- Model of `outcome.get("verified", outcome.get("applied", False))` as persisted. -/
def execVerifiedFlag : ExecResult → Bool
  | .executed _ _ _ _ v => v
  | _ => false

/-- Applied-action list of an execution result (empty unless executed). -/
def execActions : ExecResult → List AppliedAction
  | .executed _ acts _ _ _ => acts
  | _ => []

/-- Rolled-back list of an execution result (empty unless executed). -/
def execRolled : ExecResult → List RbEntry
  | .executed _ _ rolled _ _ => rolled
  | _ => []

/-- The persisted `HealingAttempt` graph record. -/
structure HealingAttempt where
  strategy : String
  dryRun : Bool
  applied : Bool
  verified : Bool
deriving DecidableEq

/-- State touched by `SelfHealingService.heal`: the selector's counters and
the `HealingAttempt` records created in the graph store. -/
structure HealState where
  selector : List (String × ℚ × ℚ)
  graphAttempts : List HealingAttempt
deriving DecidableEq

/-- Strategy choice of `heal`: `candidates = strategy and [strategy] or
diag.recommended_strategies`, then `selector.best(candidates) or
(candidates[0] if candidates else None)`. -/
def healChosen (scores : List (String × ℚ × ℚ)) (recommended : List String)
    (override : Option String) : Option String :=
  let candidates := match override with
    | some s => [s]
    | none => recommended
  (selectorBest scores candidates).orElse (fun _ => candidates.head?)

inductive HealResult where
  | noStrategy
  | healed (strategy : String) (outcome : ExecResult)
deriving DecidableEq

/-- Model of `SelfHealingService.heal`: choose a strategy, run the executor, persist a
`HealingAttempt` record and feed the outcome to the learner — the last two
steps run on every non-`no_strategy` path, dry-run included. -/
def heal (env : ExecEnv) (st : HealState) (recommended : List String)
    (override : Option String) (dryRun : Bool) (verified : Bool) :
    HealResult × HealState :=
  match healChosen st.selector recommended override with
  | none => (.noStrategy, st)
  | some chosen =>
    let outcome := execute env chosen dryRun verified
    let appliedFlag := execApplied outcome
    (.healed chosen outcome,
     { selector := record_outcome chosen appliedFlag st.selector,
       graphAttempts := st.graphAttempts ++
         [⟨chosen, dryRun, appliedFlag, execVerifiedFlag outcome⟩] })

/-! ### Knowledge Drift & Consensus
(src/api/services/knowledge_drift.py, src/api/resources/kg_consensus.py) -/

/-- A `RELATED` relation of one `(subject, predicate)` group: object entity
id, state, confidence, `lastUpdated`, version, provenance length and the
`updatedBy` marker. -/
structure Rel where
  oid : String
  state : String
  confidence : ℚ
  lastUpdated : Int
  version : Int
  provenance : Nat
  updatedBy : Option String
deriving DecidableEq

/-- Model of `_score_options`: "confidence" scores by stored confidence, any other
strategy by `lastUpdated`. -/
def scoreOptions (group : List Rel) (strategy : String) : List (String × ℚ) :=
  if strategy = "confidence" then group.map (fun r => (r.oid, r.confidence))
  else group.map (fun r => (r.oid, (r.lastUpdated : ℚ)))

/-- Winner choice shared by `remediate_conflict` and `KGResolve.post`: a
stable descending sort (`opts.sort(key=..., reverse=True)`) followed by
taking the head picks the first entry attaining the maximal score. -/
def firstMaxSnd (opts : List (String × ℚ)) : Option (String × ℚ) :=
  pyMaxBy Prod.snd opts

/-- Promotion query of `remediate_conflict`: winner's relation to "active",
siblings to "rejected", each with `lastUpdated`, a version bump, `updatedBy`
and an appended provenance entry. -/
def promoteRemediate (group : List Rel) (winner : String) (now : Int)
    (uid : Option String) : List Rel :=
  group.map (fun r =>
    { r with state := if r.oid = winner then "active" else "rejected",
             lastUpdated := now, version := r.version + 1,
             updatedBy := uid, provenance := r.provenance + 1 })

/-- Promotion query of `KGResolve.post`: winner's relation to "active",
siblings to "rejected", with `lastUpdated` and a version bump (no provenance
append, no `updatedBy`). -/
def promoteResolve (group : List Rel) (winner : String) (now : Int) : List Rel :=
  group.map (fun r =>
    { r with state := if r.oid = winner then "active" else "rejected",
             lastUpdated := now, version := r.version + 1 })

/-- State of one conflict group: its relations plus the
`ResolutionRequest` record (strategy, scored options) merged on escalation. -/
structure ConflictGroup where
  rels : List Rel
  rr : Option (String × List (String × ℚ))
deriving DecidableEq

inductive RemediateResult where
  | noOptions
  | dryPlan (winner : String) (count : Nat)
  | escalated (winner : String)
  | applied (winner : String) (updated : Nat)
deriving DecidableEq

/-- Model of `remediate_conflict`: score the group's objects, sort descending and take
the top object as winner; `dry_run` returns the plan only, `escalate` merges
a `ResolutionRequest` and leaves the relations alone, otherwise the winner is
promoted and all siblings rejected. -/
def remediate_conflict (st : ConflictGroup) (strategy : String)
    (dryRun escalate : Bool) (now : Int) (uid : Option String) :
    RemediateResult × ConflictGroup :=
  let opts := scoreOptions st.rels strategy
  match firstMaxSnd opts with
  | none => (.noOptions, st)
  | some (winner, _) =>
    if dryRun then (.dryPlan winner opts.length, st)
    else if escalate then (.escalated winner, { st with rr := some (strategy, opts) })
    else (.applied winner opts.length,
          { st with rels := promoteRemediate st.rels winner now uid })

inductive ResolveResult where
  | noOptions
  | quorumNotMet (top : String) (score : ℚ)
  | resolved (winner : String)
deriving DecidableEq

/-- Model of `KGResolve.post`: under the "votes" strategy the scores are the per-object
sums of the cast ±1 votes (`voteAgg`, which need not mention any object that
actually appears in the relation group); any other strategy scores the
group's relations by stored confidence. The quorum gate fires only when
`quorum` is truthy (non-zero), the top score is below it and the strategy is
"votes"; otherwise the winner is promoted. -/
def kg_resolve (group : List Rel) (strategy : String)
    (voteAgg : List (String × ℚ)) (quorum : Int) (now : Int) :
    ResolveResult × List Rel :=
  match firstMaxSnd (if strategy = "votes" then voteAgg
      else group.map (fun r => (r.oid, r.confidence))) with
  | none => (.noOptions, group)
  | some (winner, winScore) =>
    if quorum ≠ 0 ∧ winScore < (quorum : ℚ) ∧ strategy = "votes" then
      (.quorumNotMet winner winScore, group)
    else (.resolved winner, promoteResolve group winner now)

/-- Number of relations of a group currently in state "active". -/
def countActive (group : List Rel) : Nat :=
  (group.filter (fun r => r.state = "active")).length

/-- A `RELATED` edge of the whole graph, as touched by `merge_entities`. -/
structure KEdge where
  src : String
  typ : String
  dst : String
  confidence : ℚ
  version : Int
  provenance : Nat
deriving DecidableEq

/-- Graph state touched by `merge_entities`: the edges plus the
`mergedInto` tombstone markers on entities. -/
structure KGraph where
  edges : List KEdge
  mergedInto : List (String × String)
deriving DecidableEq

/-- The `MERGE (a)-[nr:RELATED {type: ...}]->(b) SET nr += properties(r)`
step: reuse (and overwrite) an existing edge of that type between the
endpoints, or create one; then bump the version and append one provenance
entry on top of the copied properties. -/
def upsertEdge (g : List KEdge) (src typ dst : String) (props : KEdge) : List KEdge :=
  let rewired : KEdge :=
    { props with src := src, typ := typ, dst := dst,
                 version := props.version + 1, provenance := props.provenance + 1 }
  if g.any (fun e => e.src = src ∧ e.typ = typ ∧ e.dst = dst) then
    g.map (fun e => if e.src = src ∧ e.typ = typ ∧ e.dst = dst then rewired else e)
  else g ++ [rewired]

/-- Outgoing-rewire query of `merge_entities` for one duplicate: every edge
leaving the duplicate is re-created from the target (then deleted). -/
def rewireOut (g : List KEdge) (target dup : String) : List KEdge :=
  let outs := g.filter (fun e => e.src = dup)
  let rest := g.filter (fun e => ¬ (e.src = dup))
  outs.foldl (fun acc r => upsertEdge acc target r.typ r.dst r) rest

/-- Incoming-rewire query of `merge_entities` for one duplicate. -/
def rewireIn (g : List KEdge) (target dup : String) : List KEdge :=
  let ins := g.filter (fun e => e.dst = dup)
  let rest := g.filter (fun e => ¬ (e.dst = dup))
  ins.foldl (fun acc r => upsertEdge acc r.src r.typ target r) rest

/-- Non-dry-run body of `merge_entities`: rewire outgoing then incoming edges
of every duplicate onto the target, then tombstone the duplicates with a
`mergedInto` pointer. -/
def mergeApply (g : KGraph) (target : String) (dups : List String) : KGraph :=
  let e1 := dups.foldl (fun acc d => rewireOut acc target d) g.edges
  let e2 := dups.foldl (fun acc d => rewireIn acc target d) e1
  { edges := e2,
    mergedInto := dups.foldl (fun m d => dictInsert d target m) g.mergedInto }

inductive MergeResult where
  | dryPlan (target : String) (dups : List String)
  | merged (n : Nat)
deriving DecidableEq

/-- Model of `merge_entities`: `dry_run` returns the rewiring plan before any client
call; otherwise the merge is applied. -/
def merge_entities (g : KGraph) (target : String) (dups : List String)
    (dryRun : Bool) : MergeResult × KGraph :=
  if dryRun then (.dryPlan target dups, g)
  else (.merged dups.length, mergeApply g target dups)

/-! ### Agent Lifecycle Manager
(src/api/services/autonomy/agent_lifecycle_manager.py) -/

/-- Graph-persisted `DeployedAgent` record fields touched by retirement. -/
structure DeployedRec where
  status : String
  retiredAt : Option Int
deriving DecidableEq

/-- Lifecycle state touched by `retire_agent`: the graph's `DeployedAgent`
records and the keys of the in-memory `self._deployed_agents` map. -/
structure LMState where
  graphAgents : List (String × DeployedRec)
  deployedMap : List String
deriving DecidableEq

/-- Model of `retire_agent`: unconditionally `MATCH ... SET status='retired',
retired_at=ts` (a no-op for an unknown id), publish the "retiring" and
"retired" events, pop the id from the in-memory map, and return `True`. -/
def retire_agent (st : LMState) (agent_id : String) (now : Int) :
    Bool × LMState × List (String × String) :=
  (true,
   { graphAgents := st.graphAgents.map (fun p =>
       if p.1 = agent_id then (p.1, ⟨"retired", some now⟩) else p),
     deployedMap := st.deployedMap.filter (fun x => x ≠ agent_id) },
   [("lifecycle.agent.retiring", agent_id), ("lifecycle.agent.retired", agent_id)])

/-! ### Helper lemmas -/

theorem pyMaxBy_mem {α : Type} (f : α → ℚ) (l : List α) (a : α)
    (h : pyMaxBy f l = some a) : a ∈ l := by
  match l with
  | [] => simp [pyMaxBy] at h
  | b :: rest =>
    simp only [pyMaxBy, Option.some.injEq] at h
    subst h
    have key : ∀ (xs : List α) (init : α),
        xs.foldl (fun best x => if f x > f best then x else best) init = init ∨
        xs.foldl (fun best x => if f x > f best then x else best) init ∈ xs := by
      intro xs
      induction xs with
      | nil => intro init; simp
      | cons y ys ih =>
        intro init
        simp only [List.foldl_cons]
        rcases ih (if f y > f init then y else init) with h1 | h1
        · rw [h1]
          by_cases hy : f y > f init
          · simp [hy]
          · simp [hy]
        · right; exact List.mem_cons_of_mem y h1
    rcases key rest b with h1 | h1
    · rw [h1]; exact List.mem_cons_self b rest
    · exact List.mem_cons_of_mem b h1

theorem alookup_dictInsert_self {β : Type} (k : String) (v : β)
    (l : List (String × β)) : alookup (dictInsert k v l) k = some v := by
  induction l with
  | nil => simp [dictInsert, alookup, List.find?]
  | cons p rest ih =>
    by_cases h : p.1 = k
    · simp [dictInsert, h, alookup, List.find?]
    · simp only [dictInsert, h, if_false]
      simpa [alookup, List.find?, h] using ih

theorem dictInsert_length_of_mem {β : Type} (k : String) (v : β)
    (l : List (String × β)) (w : β) (h : alookup l k = some w) :
    (dictInsert k v l).length = l.length := by
  induction l with
  | nil => simp [alookup, List.find?] at h
  | cons p rest ih =>
    by_cases hp : p.1 = k
    · simp [dictInsert, hp]
    · simp only [dictInsert, hp, if_false, List.length_cons]
      simp only [alookup, List.find?, hp] at h
      rw [ih (by simpa [alookup, hp] using h)]

theorem alookup_map_setKey_of_none (l : List (String × DeployedRec)) (k : String)
    (v : DeployedRec) (h : alookup l k = none) :
    l.map (fun p => if p.1 = k then (p.1, v) else p) = l := by
  induction l with
  | nil => simp
  | cons p rest ih =>
    simp only [alookup, List.find?] at h
    by_cases hp : p.1 = k
    · simp [hp] at h
    · simp only [List.map_cons, hp, if_false]
      rw [ih (by simpa [alookup, hp] using h)]

theorem alookup_map_setKey_of_some (l : List (String × DeployedRec)) (k : String)
    (v w : DeployedRec) (h : alookup l k = some w) :
    alookup (l.map (fun p => if p.1 = k then (p.1, v) else p)) k = some v := by
  induction l with
  | nil => simp [alookup, List.find?] at h
  | cons p rest ih =>
    by_cases hp : p.1 = k
    · simp [alookup, List.find?, hp]
    · simp only [List.map_cons, hp, if_false]
      simp only [alookup, List.find?, hp] at h ⊢
      exact ih (by simpa [alookup, hp] using h)

theorem filterMap_eq_map_of_forall {α β : Type} (f : α → Option β) (g : α → β)
    (l : List α) (h : ∀ x ∈ l, f x = some (g x)) : l.filterMap f = l.map g := by
  induction l with
  | nil => simp
  | cons x rest ih =>
    simp only [List.filterMap_cons, h x (List.mem_cons_self x rest), List.map_cons]
    rw [ih (fun y hy => h y (List.mem_cons_of_mem x hy))]

/-! ### Claim C1 — retirement -/

/-- Claim C1 counterexample: retiring an id unknown to both the graph and the
live deployed-set returns `true` (the claim says `false`) and emits both
lifecycle events (the claim says none). -/
theorem C1_counterexample :
    (retire_agent ⟨[], []⟩ "ghost" 0).1 = true ∧
    (retire_agent ⟨[], []⟩ "ghost" 0).2.2 =
      [("lifecycle.agent.retiring", "ghost"), ("lifecycle.agent.retired", "ghost")] := by
  exact ⟨rfl, rfl⟩

/-- Claim C1 (amended): `retire_agent` always returns `true` and always emits
"retiring" then "retired" (so a repeated or unknown-id call duplicates the
events); its state effect is idempotent — an unknown id leaves the graph
records unchanged, a known id's record is marked retired, the id is removed
from the live deployed-set, and re-retiring with the same timestamp leaves
the state fixed. -/
theorem C1_retire_behavior (st : LMState) (agent_id : String) (now : Int) :
    (retire_agent st agent_id now).1 = true ∧
    (retire_agent st agent_id now).2.2 =
      [("lifecycle.agent.retiring", agent_id), ("lifecycle.agent.retired", agent_id)] ∧
    (alookup st.graphAgents agent_id = none →
      ((retire_agent st agent_id now).2.1).graphAgents = st.graphAgents) ∧
    (∀ r, alookup st.graphAgents agent_id = some r →
      alookup ((retire_agent st agent_id now).2.1).graphAgents agent_id =
        some ⟨"retired", some now⟩) ∧
    agent_id ∉ ((retire_agent st agent_id now).2.1).deployedMap ∧
    (retire_agent (retire_agent st agent_id now).2.1 agent_id now).2.1 =
      (retire_agent st agent_id now).2.1 := by
  refine ⟨rfl, rfl, ?_, ?_, ?_, ?_⟩
  · intro h
    exact alookup_map_setKey_of_none st.graphAgents agent_id ⟨"retired", some now⟩ h
  · intro r h
    exact alookup_map_setKey_of_some st.graphAgents agent_id ⟨"retired", some now⟩ r h
  · simp [retire_agent, List.mem_filter]
  · simp only [retire_agent, List.map_map, List.filter_filter]
    congr 1
    · apply List.map_congr_left
      intro p _
      by_cases hp : p.1 = agent_id
      · simp [Function.comp, hp]
      · simp [Function.comp, hp]
    · apply List.filter_congr
      intro x _
      by_cases hx : x = agent_id <;> simp [hx]

/-- Witness for C1's amended theorem at a concrete one-agent state. -/
theorem C1_retire_behavior_witness :
    alookup ((retire_agent ⟨[("a1", ⟨"active", none⟩)], ["a1"]⟩ "a1" 5).2.1).graphAgents
      "a1" = some ⟨"retired", some 5⟩ :=
  (C1_retire_behavior ⟨[("a1", ⟨"active", none⟩)], ["a1"]⟩ "a1" 5).2.2.2.1
    ⟨"active", none⟩ rfl

/-! ### Claim C3 — consensus threshold -/

/-- Claim C3 counterexample: a consensus call over an empty registry has a
registered-participant weight sum of 0 (below 0.5), yet it passes, because
the code replaces an exactly-zero sum by 1.0 (`sum(...) or 1.0`). -/
theorem C3_counterexample :
    consensusWeightSum ⟨[]⟩ ["p1"] [] = 0 ∧
    ¬ (consensusWeightSum ⟨[]⟩ ["p1"] [] ≥ 1/2) ∧
    consensus_passed ⟨[]⟩ ["p1"] [] = true := by
  refine ⟨rfl, by norm_num [consensusWeightSum, consensusVotes, alookup, List.find?], ?_⟩
  have hzeta : consensus_passed ⟨[]⟩ ["p1"] [] =
      decide ((if consensusWeightSum ⟨[]⟩ ["p1"] [] = 0 then (1 : ℚ)
        else consensusWeightSum ⟨[]⟩ ["p1"] []) ≥ 1/2) := rfl
  have h0 : consensusWeightSum ⟨[]⟩ ["p1"] [] = 0 := rfl
  rw [hzeta, h0]
  norm_num

/-- Claim C3 (amended): the proposal passes iff the registered-participant
weight sum is at least 0.5 **or is exactly 0** (an all-zero or empty vote
list is silently turned into a passing total of 1.0). -/
theorem C3_consensus_pass_iff (st : CoordState) (participants : List String)
    (weights : List (String × ℚ)) :
    consensus_passed st participants weights = true ↔
      (consensusWeightSum st participants weights ≥ 1/2 ∨
       consensusWeightSum st participants weights = 0) := by
  have hzeta : consensus_passed st participants weights =
      decide ((if consensusWeightSum st participants weights = 0 then (1 : ℚ)
        else consensusWeightSum st participants weights) ≥ 1/2) := rfl
  rw [hzeta, decide_eq_true_iff]
  by_cases h : consensusWeightSum st participants weights = 0
  · rw [if_pos h]
    constructor
    · intro _; exact Or.inr h
    · intro _; norm_num
  · rw [if_neg h]
    constructor
    · exact Or.inl
    · rintro (hge | h0)
      · exact hge
      · exact absurd h0 h

/-! ### Claim C10 — registration replaces wholesale -/

/-- Claim C10: re-registering a known agent id overwrites the stored record
wholesale (workload reset to 0, heartbeat to now, role/capabilities/perf from
the arguments) and does not grow the registry. -/
theorem C10_register_replaces (st : CoordState) (agent_id role : String)
    (caps : List String) (perf now : ℚ) (old : AgentInfo)
    (h : alookup st.agents agent_id = some old) :
    alookup ((register_agent st agent_id role caps perf now).1).agents agent_id =
      some ⟨agent_id, role, caps, 0, perf, now⟩ ∧
    ((register_agent st agent_id role caps perf now).1).agents.length =
      st.agents.length := by
  constructor
  · exact alookup_dictInsert_self agent_id _ st.agents
  · exact dictInsert_length_of_mem agent_id _ st.agents old h

/-- Witness for C10 at a concrete one-agent registry. -/
theorem C10_register_replaces_witness :
    alookup ((register_agent ⟨[("a1", ⟨"a1", "tactical", ["x"], 7/10, 6/10, 1⟩)]⟩
        "a1" "strategic" ["y"] (9/10) 2).1).agents "a1" =
      some ⟨"a1", "strategic", ["y"], 0, 9/10, 2⟩ ∧
    ((register_agent ⟨[("a1", ⟨"a1", "tactical", ["x"], 7/10, 6/10, 1⟩)]⟩
        "a1" "strategic" ["y"] (9/10) 2).1).agents.length = 1 :=
  C10_register_replaces ⟨[("a1", ⟨"a1", "tactical", ["x"], 7/10, 6/10, 1⟩)]⟩
    "a1" "strategic" ["y"] (9/10) 2 ⟨"a1", "tactical", ["x"], 7/10, 6/10, 1⟩ rfl

/-! ### Claim C6 — allocation eligibility -/

/-- Claim C6: an agent is an allocation candidate iff it is registered and its
capability set covers every task requirement; an allocated agent always
covers the requirements, and with no capable candidate the call returns the
explicit not-allocated result without touching the registry. -/
theorem C6_allocation_eligibility (st : CoordState) (t : Task) (slaWeight : ℚ)
    (predict : AgentInfo → ℚ) :
    (∀ a, a ∈ allocCandidates st t ↔
      (a ∈ st.agents.map Prod.snd ∧ ∀ r ∈ t.requirements, r ∈ a.capabilities)) ∧
    (∀ chosen st', allocate_task st t slaWeight predict = (.allocated chosen, st') →
      ∀ r ∈ t.requirements, r ∈ chosen.capabilities) ∧
    (allocCandidates st t = [] →
      allocate_task st t slaWeight predict = (.notAllocated, st)) := by
  have hcand : ∀ a, a ∈ allocCandidates st t ↔
      (a ∈ st.agents.map Prod.snd ∧ ∀ r ∈ t.requirements, r ∈ a.capabilities) := by
    intro a
    simp [allocCandidates, List.mem_filter, capable, List.all_eq_true]
  refine ⟨hcand, ?_, ?_⟩
  · intro chosen st' h
    cases hmax : pyMaxBy (fun a => allocScore slaWeight t (predict a) a)
        (allocCandidates st t) with
    | none => simp [allocate_task, hmax] at h
    | some c =>
      have hc : c ∈ allocCandidates st t := pyMaxBy_mem _ _ c hmax
      simp only [allocate_task, hmax] at h
      have hchosen : chosen = c := by
        have := congrArg Prod.fst h
        simpa using this.symm
      subst hchosen
      exact ((hcand chosen).mp hc).2
  · intro hempty
    simp [allocate_task, hempty, pyMaxBy]

/-- Witness for C6 at a concrete registry: allocating an "analyze" task over
an empty registry is refused, and the agent chosen from a one-agent registry
covers the requirement. -/
theorem C6_allocation_eligibility_witness :
    allocate_task ⟨[]⟩ ⟨"T1", "x", ["analyze"], 2⟩ 1 (fun _ => 0) =
      (.notAllocated, ⟨[]⟩) ∧
    "analyze" ∈ (AgentInfo.mk "s1" "strategic" ["analyze"] 0 (8/10) 0).capabilities := by
  constructor
  · exact (C6_allocation_eligibility ⟨[]⟩ ⟨"T1", "x", ["analyze"], 2⟩ 1
      (fun _ => 0)).2.2 rfl
  · exact (C6_allocation_eligibility
      ⟨[("s1", ⟨"s1", "strategic", ["analyze"], 0, 8/10, 0⟩)]⟩
      ⟨"T1", "x", ["analyze"], 2⟩ 1 (fun _ => 0)).2.1
      ⟨"s1", "strategic", ["analyze"], 0, 8/10, 0⟩
      ⟨[("s1", ⟨"s1", "strategic", ["analyze"], min 1 (0 + 1/10), 8/10, 0⟩)]⟩
      rfl "analyze" (by simp)

/-! ### Claim C7 — scoring monotonicity -/

/-- Claim C7 counterexample: with a negative caller-supplied `slaWeight`
(which the code never constrains), raising `perf_score` from 0 to 1 with
every other input identical strictly lowers the allocation score. -/
theorem C7_counterexample :
    allocScore (-1) ⟨"t", "x", [], 0⟩ 0 ⟨"a", "worker", [], 0, 1, 0⟩ <
      allocScore (-1) ⟨"t", "x", [], 0⟩ 0 ⟨"a", "worker", [], 0, 0, 0⟩ := by
  have hne : ¬ (("worker" : String) = "operational") := by decide
  norm_num [allocScore, roleBonus, hne]

/-- Claim C7 (amended): holding the other inputs of a call fixed, increasing
workload never increases the allocation score, and — provided the call's
`slaWeight` is nonnegative (the default is 1.0, but callers may pass any
value) — increasing `perf_score` never decreases it. -/
theorem C7_score_monotonicity (slaWeight predicted : ℚ) (t : Task)
    (a : AgentInfo) (wl1 wl2 p1 p2 : ℚ) :
    (wl1 ≤ wl2 →
      allocScore slaWeight t predicted { a with workload := wl2 } ≤
        allocScore slaWeight t predicted { a with workload := wl1 }) ∧
    (0 ≤ slaWeight → p1 ≤ p2 →
      allocScore slaWeight t predicted { a with perf_score := p1 } ≤
        allocScore slaWeight t predicted { a with perf_score := p2 }) := by
  constructor
  · intro h
    simp only [allocScore]
    linarith
  · intro hs hp
    simp only [allocScore]
    have hmul := mul_le_mul_of_nonneg_left
      (add_le_add_right hp (roleBonus a.role t.priority)) hs
    linarith

/-- Witness for C7 at concrete inputs. -/
theorem C7_score_monotonicity_witness :
    allocScore 1 ⟨"t", "x", [], 0⟩ 0 ⟨"a", "worker", [], 1/2, 1/2, 0⟩ ≤
      allocScore 1 ⟨"t", "x", [], 0⟩ 0 ⟨"a", "worker", [], 0, 1/2, 0⟩ ∧
    allocScore 1 ⟨"t", "x", [], 0⟩ 0 ⟨"a", "worker", [], 1/2, 1/4, 0⟩ ≤
      allocScore 1 ⟨"t", "x", [], 0⟩ 0 ⟨"a", "worker", [], 1/2, 3/4, 0⟩ := by
  constructor
  · exact (C7_score_monotonicity 1 0 ⟨"t", "x", [], 0⟩ ⟨"a", "worker", [], 0, 1/2, 0⟩
      0 (1/2) 0 0).1 (by norm_num)
  · exact (C7_score_monotonicity 1 0 ⟨"t", "x", [], 0⟩ ⟨"a", "worker", [], 1/2, 0, 0⟩
      0 0 (1/4) (3/4)).2 (by norm_num) (by norm_num)

/-! ### Claim C9 — anomaly detection -/

/-- Claim C9 counterexample: with baseline mean 0 and stdev 1, the metric
value 2 has z-score exactly 2, so it is flagged — but its severity is "low",
not the "medium" the claim requires for every flagged anomaly with
`|z| ≤ 3`. -/
theorem C9_counterexample :
    detect [("m", (0, 1))] [("m", 2)] = [⟨"m", 2, 0, 2, "low", "above"⟩] ∧
    ¬ ("low" = "high" ∨ "low" = "medium") := by
  refine ⟨?_, by decide⟩
  simp [detect, detectOne, baselineFor, alookup, List.find?]
  norm_num

/-- Claim C9 (amended): a metric is flagged exactly when its baseline stdev is
non-zero and `|z| ≥ 2` with `z = (value − mean)/stdev` (a zero stdev forces
`z = 0` — there is no epsilon floor — so nothing is flagged); a flagged
anomaly's severity is "high" for `|z| > 3`, "medium" for `2 < |z| ≤ 3` and
"low" at `|z| = 2` exactly, with the hint recording the direction. -/
theorem C9_detect_characterization (baselines : List (String × ℚ × ℚ))
    (k : String) (v : ℚ) :
    (((baselineFor baselines k v).2 = 0 ∨
        |(v - (baselineFor baselines k v).1) / (baselineFor baselines k v).2| < 2) →
      detectOne baselines (k, v) = none) ∧
    (((baselineFor baselines k v).2 ≠ 0 ∧
        2 ≤ |(v - (baselineFor baselines k v).1) / (baselineFor baselines k v).2|) →
      detectOne baselines (k, v) = some
        ⟨k, v, (baselineFor baselines k v).1,
         (v - (baselineFor baselines k v).1) / (baselineFor baselines k v).2,
         if 3 < |(v - (baselineFor baselines k v).1) / (baselineFor baselines k v).2|
           then "high"
           else if 2 < |(v - (baselineFor baselines k v).1) /
               (baselineFor baselines k v).2|
             then "medium" else "low",
         if (baselineFor baselines k v).1 < v then "above" else "below"⟩) := by
  set mu := (baselineFor baselines k v).1 with hmu
  set sd := (baselineFor baselines k v).2 with hsd
  constructor
  · rintro (h0 | hlt)
    · simp only [detectOne, ← hmu, ← hsd, h0, if_pos rfl]
      norm_num
    · by_cases h0 : sd = 0
      · simp only [detectOne, ← hmu, ← hsd, h0, if_pos rfl]
        norm_num
      · simp only [detectOne, ← hmu, ← hsd, h0, if_neg h0]
        rw [if_neg (by exact fun h => absurd h (not_le.mpr hlt))]
  · rintro ⟨h0, hge⟩
    simp only [detectOne, ← hmu, ← hsd, if_neg h0]
    rw [if_pos hge]

/-- Witness for C9 at a concrete baseline: mean 0, stdev 1, value 10 gives
z = 10 and a "high"/"above" finding. -/
theorem C9_detect_characterization_witness :
    detectOne [("m", (0, 1))] ("m", 10) = some ⟨"m", 10, 0, 10, "high", "above"⟩ := by
  have hb : baselineFor [("m", (0, 1))] "m" 10 = (0, 1) := rfl
  have h := (C9_detect_characterization [("m", (0, 1))] "m" 10).2
  rw [hb] at h
  have h2 := h ⟨by norm_num, by norm_num⟩
  rw [h2]
  norm_num

/-! ### Helper lemmas for resolution exclusivity -/

theorem scoreOptions_fst_mem (group : List Rel) (strategy : String)
    (w : String) (s : ℚ) (h : (w, s) ∈ scoreOptions group strategy) :
    w ∈ group.map Rel.oid := by
  unfold scoreOptions at h
  split at h <;>
  · simp only [List.mem_map] at h ⊢
    obtain ⟨r, hr, heq⟩ := h
    exact ⟨r, hr, congrArg Prod.fst heq⟩

theorem length_filter_oid_eq (group : List Rel) (w : String)
    (hnodup : (group.map Rel.oid).Nodup) (hmem : w ∈ group.map Rel.oid) :
    (group.filter (fun r => decide (r.oid = w))).length = 1 := by
  induction group with
  | nil => simp at hmem
  | cons a rest ih =>
    simp only [List.map_cons, List.nodup_cons] at hnodup
    simp only [List.map_cons] at hmem
    rcases List.mem_cons.mp hmem with h | h
    · have hnotin : ∀ r ∈ rest, ¬ (r.oid = w) := by
        intro r hr he
        have hmm : r.oid ∈ rest.map Rel.oid := List.mem_map_of_mem Rel.oid hr
        rw [he, h] at hmm
        exact hnodup.1 hmm
      have hnil : rest.filter (fun r => decide (r.oid = w)) = [] :=
        List.filter_eq_nil_iff.mpr (by intro r hr; simpa using hnotin r hr)
      rw [List.filter_cons_of_pos (by simp [h.symm]), hnil]
      rfl
    · have hna : ¬ (a.oid = w) := by
        intro he
        refine hnodup.1 ?_
        rw [he]
        exact h
      rw [List.filter_cons_of_neg (by simpa using hna)]
      exact ih hnodup.2 h

theorem exactlyOneActive_promote (group : List Rel) (w : String)
    (upd : Rel → Rel)
    (hstate : ∀ r, (upd r).state = if r.oid = w then "active" else "rejected")
    (hnodup : (group.map Rel.oid).Nodup) (hmem : w ∈ group.map Rel.oid) :
    countActive (group.map upd) = 1 := by
  unfold countActive
  rw [List.filter_map, List.length_map]
  have hcongr : group.filter ((fun r : Rel => decide (r.state = "active")) ∘ upd) =
      group.filter (fun r => decide (r.oid = w)) := by
    apply List.filter_congr
    intro r _
    simp only [Function.comp_apply]
    rw [hstate r]
    by_cases hr : r.oid = w
    · simp [hr]
    · simp [hr]
  rw [hcongr]
  exact length_filter_oid_eq group w hnodup hmem

theorem activeIffWinner_promote (group : List Rel) (w : String)
    (upd : Rel → Rel)
    (hstate : ∀ r, (upd r).state = if r.oid = w then "active" else "rejected")
    (hoid : ∀ r, (upd r).oid = r.oid) :
    ∀ r ∈ group.map upd,
      (r.state = "active" ↔ r.oid = w) ∧
      (r.state = "active" ∨ r.state = "rejected") := by
  intro r hr
  obtain ⟨r0, _, hval⟩ := List.mem_map.mp hr
  subst hval
  rw [hstate r0, hoid r0]
  by_cases h0 : r0.oid = w
  · simp [h0]
  · simp [h0]

/-! ### Claim C4 — quorum gate -/

/-- Claim C4 counterexample: with quorum 0 the gate is skipped outright
(`if quorum and ...` — 0 is falsy), so a winner whose aggregated score (−2)
is below the quorum is promoted anyway and the relation group is mutated. -/
theorem C4_counterexample :
    (kg_resolve [⟨"o1", "inactive", 1/2, 0, 0, 0, none⟩] "votes"
       [("o1", -2)] 0 5).1 = .resolved "o1" ∧
    (kg_resolve [⟨"o1", "inactive", 1/2, 0, 0, 0, none⟩] "votes"
       [("o1", -2)] 0 5).2 = [⟨"o1", "active", 1/2, 5, 1, 0, none⟩] ∧
    ((-2 : ℚ) < ((0 : Int) : ℚ)) := by
  refine ⟨?_, ?_, by norm_num⟩ <;>
    simp [kg_resolve, firstMaxSnd, pyMaxBy, promoteResolve]

/-- Claim C4 (amended): for every **non-zero** caller-supplied quorum, a
vote-strategy resolution whose top aggregated score is below the quorum
returns the structured quorum-not-met result and leaves the relation group
untouched (the code's truthiness test exempts a quorum of exactly 0). -/
theorem C4_quorum_gate (group : List Rel) (voteAgg : List (String × ℚ))
    (quorum : Int) (now : Int) (winner : String) (winScore : ℚ)
    (hq : quorum ≠ 0) (hmax : firstMaxSnd voteAgg = some (winner, winScore))
    (hlt : winScore < (quorum : ℚ)) :
    kg_resolve group "votes" voteAgg quorum now =
      (.quorumNotMet winner winScore, group) := by
  unfold kg_resolve
  rw [if_pos rfl, hmax]
  dsimp only
  rw [if_pos ⟨hq, hlt, rfl⟩]

/-- Witness for C4 at a concrete vote aggregate. -/
theorem C4_quorum_gate_witness :
    kg_resolve [⟨"A", "active", 1/2, 0, 0, 0, none⟩] "votes" [("A", 2)] 3 9 =
      (.quorumNotMet "A" 2, [⟨"A", "active", 1/2, 0, 0, 0, none⟩]) :=
  C4_quorum_gate [⟨"A", "active", 1/2, 0, 0, 0, none⟩] [("A", 2)] 3 9 "A" 2
    (by decide) rfl (by norm_num)

/-! ### Claim C5 — resolution exclusivity -/

/-- Claim C5 counterexample: vote-based resolution promotes the top **voted**
object id, which need not correspond to any relation in the
`(subject, predicate)` group — here the winning vote names "ghost", so the
promotion pass rejects every relation and zero (not exactly one) end up
"active". -/
theorem C5_counterexample :
    (kg_resolve [⟨"A", "active", 9/10, 0, 0, 0, none⟩,
                 ⟨"B", "active", 4/10, 0, 0, 0, none⟩]
       "votes" [("ghost", 5)] 1 7).1 = .resolved "ghost" ∧
    countActive (kg_resolve [⟨"A", "active", 9/10, 0, 0, 0, none⟩,
                 ⟨"B", "active", 4/10, 0, 0, 0, none⟩]
       "votes" [("ghost", 5)] 1 7).2 = 0 := by
  constructor <;>
    simp [kg_resolve, firstMaxSnd, pyMaxBy, promoteResolve, countActive]

/-- Claim C5 (amended): over a group whose object ids are distinct (one
relation per `(subject, predicate, object)` triple), a non-dry-run,
non-escalated `remediate_conflict` leaves exactly one relation "active" and
the rest "rejected"; a resolution-endpoint run does the same **provided** the
promoted winner is the object id of some relation in the group — which the
vote strategy does not guarantee. -/
theorem C5_resolution_exclusivity (st : ConflictGroup) (strategy : String)
    (now : Int) (uid : Option String) (winner : String) (s : ℚ)
    (group : List Rel) (rstrategy : String) (voteAgg : List (String × ℚ))
    (quorum : Int) (rwinner : String) (group' : List Rel) :
    ((st.rels.map Rel.oid).Nodup →
      firstMaxSnd (scoreOptions st.rels strategy) = some (winner, s) →
      countActive (remediate_conflict st strategy false false now uid).2.rels = 1 ∧
      ∀ r ∈ (remediate_conflict st strategy false false now uid).2.rels,
        (r.state = "active" ↔ r.oid = winner) ∧
        (r.state = "active" ∨ r.state = "rejected")) ∧
    ((group.map Rel.oid).Nodup → rwinner ∈ group.map Rel.oid →
      kg_resolve group rstrategy voteAgg quorum now = (.resolved rwinner, group') →
      countActive group' = 1 ∧
      ∀ r ∈ group', (r.state = "active" ↔ r.oid = rwinner) ∧
        (r.state = "active" ∨ r.state = "rejected")) := by
  constructor
  · intro hnodup hmax
    have hmem : winner ∈ st.rels.map Rel.oid :=
      scoreOptions_fst_mem st.rels strategy winner s
        (pyMaxBy_mem _ _ _ hmax)
    have hout : (remediate_conflict st strategy false false now uid).2.rels =
        promoteRemediate st.rels winner now uid := by
      simp [remediate_conflict, hmax]
    rw [hout]
    have hstate : ∀ r, ((fun r : Rel =>
        { r with state := if r.oid = winner then "active" else "rejected",
                 lastUpdated := now, version := r.version + 1,
                 updatedBy := uid, provenance := r.provenance + 1 }) r).state =
        if r.oid = winner then "active" else "rejected" := fun _ => rfl
    exact ⟨exactlyOneActive_promote st.rels winner _ hstate hnodup hmem,
      activeIffWinner_promote st.rels winner _ hstate (fun _ => rfl)⟩
  · intro hnodup hmem heq
    have hout : group' = promoteResolve group rwinner now := by
      unfold kg_resolve at heq
      rcases hmaxr : firstMaxSnd (if rstrategy = "votes" then voteAgg
          else group.map (fun r => (r.oid, r.confidence))) with _ | ⟨w, sc⟩ <;>
        rw [hmaxr] at heq
      · exact absurd (congrArg Prod.fst heq) (by simp)
      · dsimp only at heq
        by_cases hgate : quorum ≠ 0 ∧ sc < (quorum : ℚ) ∧ rstrategy = "votes"
        · rw [if_pos hgate] at heq
          exact absurd (congrArg Prod.fst heq) (by simp)
        · rw [if_neg hgate] at heq
          have hw : w = rwinner := by
            have h1 := congrArg Prod.fst heq
            simpa using h1
          have h2 := congrArg Prod.snd heq
          simpa [hw] using h2.symm
    subst hout
    have hstate : ∀ r, ((fun r : Rel =>
        { r with state := if r.oid = rwinner then "active" else "rejected",
                 lastUpdated := now, version := r.version + 1 }) r).state =
        if r.oid = rwinner then "active" else "rejected" := fun _ => rfl
    exact ⟨exactlyOneActive_promote group rwinner _ hstate hnodup hmem,
      activeIffWinner_promote group rwinner _ hstate (fun _ => rfl)⟩

/-- Witness for C5 at a concrete two-relation group (example scenario (3) of
the spec: confidence 0.9 beats 0.4). -/
theorem C5_resolution_exclusivity_witness :
    countActive (remediate_conflict
      ⟨[⟨"A", "active", 9/10, 0, 0, 0, none⟩,
        ⟨"B", "active", 4/10, 0, 0, 0, none⟩], none⟩
      "confidence" false false 7 none).2.rels = 1 :=
  ((C5_resolution_exclusivity
      ⟨[⟨"A", "active", 9/10, 0, 0, 0, none⟩,
        ⟨"B", "active", 4/10, 0, 0, 0, none⟩], none⟩
      "confidence" 7 none "A" (9/10) [] "votes" [] 0 "A" []).1
    (by decide) (by norm_num [firstMaxSnd, pyMaxBy, scoreOptions])).1

/-! ### Claim C2 — dry-run purity -/

/-- Claim C2 counterexample: a `heal` call with `dryRun = true` still appends
a `HealingAttempt` record to the graph store and bumps the chosen strategy's
attempt counter (recording a failed attempt), so dry-run recovery execution
via `heal` is not pure. -/
theorem C2_counterexample :
    (heal ⟨false, false, false, false⟩ ⟨[], []⟩ ["restart_unhealthy"]
        none true true).2 =
      ⟨[("restart_unhealthy", (0, 1))], [⟨"restart_unhealthy", true, false, false⟩]⟩ ∧
    ([("restart_unhealthy", ((0 : ℚ), (1 : ℚ)))] ≠ ([] : List (String × ℚ × ℚ))) ∧
    ([(⟨"restart_unhealthy", true, false, false⟩ : HealingAttempt)] ≠
      ([] : List HealingAttempt)) := by
  refine ⟨?_, by simp, by simp⟩
  have h1 : (heal ⟨false, false, false, false⟩ ⟨[], []⟩ ["restart_unhealthy"]
      none true true).2 =
      ⟨record_outcome "restart_unhealthy" false [],
       [⟨"restart_unhealthy", true, false, false⟩]⟩ := rfl
  rw [h1]
  simp [record_outcome, alookup, dictInsert]

theorem execApplied_dry (env : ExecEnv) (name : String) (v : Bool) :
    execApplied (execute env name true v) = false := by
  unfold execute
  cases libGet name <;> simp [execApplied]

theorem execVerifiedFlag_dry (env : ExecEnv) (name : String) (v : Bool) :
    execVerifiedFlag (execute env name true v) = false := by
  unfold execute
  cases libGet name <;> simp [execVerifiedFlag]

/-- Claim C2 (amended): dry-run conflict remediation, dry-run entity merge
and dry-run `RecoveryExecutor.execute` are pure — the graph state is returned
unchanged and no action is applied or rolled back — but the `heal` wrapper
with `dryRun = true` still appends exactly one `HealingAttempt` record to the
graph store and increments the chosen strategy's attempt counter (success
unchanged, outcome recorded as not applied). -/
theorem C2_dry_run_effects (cg : ConflictGroup) (strategy : String)
    (esc : Bool) (now : Int) (uid : Option String) (g : KGraph)
    (target : String) (dups : List String) (env : ExecEnv) (name : String)
    (v : Bool) (st : HealState) (recommended : List String)
    (override : Option String) (chosen : String) :
    (remediate_conflict cg strategy true esc now uid).2 = cg ∧
    (merge_entities g target dups true).2 = g ∧
    execActions (execute env name true v) = [] ∧
    execRolled (execute env name true v) = [] ∧
    (healChosen st.selector recommended override = some chosen →
      (heal env st recommended override true v).2.selector =
        record_outcome chosen false st.selector ∧
      (heal env st recommended override true v).2.graphAttempts =
        st.graphAttempts ++ [⟨chosen, true, false, false⟩]) := by
  refine ⟨?_, ?_, ?_, ?_, ?_⟩
  · unfold remediate_conflict
    dsimp only
    cases h : firstMaxSnd (scoreOptions cg.rels strategy) with
    | none => rfl
    | some p =>
      rcases p with ⟨w, s⟩
      rfl
  · rfl
  · unfold execute
    cases libGet name <;> simp [execActions]
  · unfold execute
    cases libGet name <;> simp [execRolled]
  · intro hchosen
    unfold heal
    rw [hchosen]
    constructor
    · simp only [execApplied_dry]
    · simp only [execApplied_dry, execVerifiedFlag_dry]

/-- Witness for C2's amended theorem: the `heal` conjunct applied at the
counterexample's concrete inputs. -/
theorem C2_dry_run_effects_witness :
    (heal ⟨false, false, false, false⟩ ⟨[], []⟩ ["restart_unhealthy"]
        none true true).2.selector =
      record_outcome "restart_unhealthy" false [] ∧
    (heal ⟨false, false, false, false⟩ ⟨[], []⟩ ["restart_unhealthy"]
        none true true).2.graphAttempts =
      [⟨"restart_unhealthy", true, false, false⟩] :=
  (C2_dry_run_effects ⟨[], none⟩ "confidence" false 0 none ⟨[], []⟩ "t" []
      ⟨false, false, false, false⟩ "restart_unhealthy" true ⟨[], []⟩
      ["restart_unhealthy"] none "restart_unhealthy").2.2.2.2 rfl

/-! ### Claim C8 — rollback completeness -/

/-- Action types `RecoveryExecutor._rollback` knows how to handle. -/
def handledTyp (t : String) : Bool :=
  decide (t = "scale" ∨ t = "config.rollback" ∨ t = "rebalance" ∨
    t = "rate_limit" ∨ t = "queue.purge" ∨ t.take 7 = "docker.")

/-- The rollback entry `_rollback` produces for one handled applied action:
`scale` gets its delta negated, every other handled type is a no-op. -/
def invertAction (a : AppliedAction) : RbEntry :=
  if a.typ = "scale" then ⟨"scale", -a.delta, "ok"⟩ else ⟨a.typ, 0, "noop"⟩

theorem rollbackOne_handled (a : AppliedAction) (h : handledTyp a.typ = true) :
    rollbackOne a = some (invertAction a) := by
  unfold handledTyp at h
  rw [decide_eq_true_iff] at h
  unfold rollbackOne invertAction
  by_cases hs : a.typ = "scale"
  · rw [if_pos hs, if_pos hs]
  · rw [if_neg hs, if_neg hs]
    rcases h with h | h | h | h | h | h
    · exact absurd h hs
    · rw [if_pos (Or.inl h)]
    · rw [if_pos (Or.inr (Or.inl h))]
    · rw [if_pos (Or.inr (Or.inr (Or.inl h)))]
    · rw [if_pos (Or.inr (Or.inr (Or.inr h)))]
    · by_cases hnoop : a.typ = "config.rollback" ∨ a.typ = "rebalance" ∨
          a.typ = "rate_limit" ∨ a.typ = "queue.purge"
      · rw [if_pos hnoop]
      · rw [if_neg hnoop, if_pos h]

theorem applyAction_typ (env : ExecEnv) (a : HealAction) :
    (applyAction env a).typ = a.typ := by
  unfold applyAction
  repeat' split
  all_goals rfl

theorem strategyLib_handled :
    ∀ s ∈ strategyLib, ∀ a ∈ s.actions, handledTyp a.typ = true := by
  decide

/-- Claim C8: when verification fails after the actions of a (library)
strategy were applied, the rollback list is exactly the applied-action list
reversed and sent through `invertAction` — one entry per applied action, in
reverse order of application, with `scale` deltas negated and every other
action type rolled back as a no-op. -/
theorem C8_rollback_completeness (env : ExecEnv) (name : String)
    (strat : HealingStrategy) (h : libGet name = some strat) :
    execRolled (execute env name false false) =
      (execActions (execute env name false false)).reverse.map invertAction ∧
    (execRolled (execute env name false false)).length =
      (execActions (execute env name false false)).length := by
  have hmem : strat ∈ strategyLib := List.mem_of_find?_eq_some h
  have hexec : execute env name false false =
      .executed strat.name (strat.actions.map (applyAction env))
        (rollbackList (strat.actions.map (applyAction env))) false false := by
    unfold execute
    rw [h]
    rfl
  rw [hexec]
  have hall : ∀ x ∈ (strat.actions.map (applyAction env)).reverse,
      rollbackOne x = some (invertAction x) := by
    intro x hx
    rw [List.mem_reverse] at hx
    obtain ⟨a, ha, hval⟩ := List.mem_map.mp hx
    apply rollbackOne_handled
    rw [← hval] at *
    rw [applyAction_typ]
    exact strategyLib_handled strat hmem a ha
  have hroll : rollbackList (strat.actions.map (applyAction env)) =
      (strat.actions.map (applyAction env)).reverse.map invertAction := by
    unfold rollbackList
    exact filterMap_eq_map_of_forall rollbackOne invertAction _ hall
  refine ⟨?_, ?_⟩
  · simpa [execRolled, execActions] using hroll
  · simp [execRolled, execActions, hroll]

/-- Witness for C8 at the `scale_service` strategy: one applied scale action
with delta +1 rolls back as a single scale entry with delta −1. -/
theorem C8_rollback_completeness_witness :
    execRolled (execute ⟨false, false, false, false⟩ "scale_service" false false) =
      (execActions (execute ⟨false, false, false, false⟩
        "scale_service" false false)).reverse.map invertAction ∧
    (execRolled (execute ⟨false, false, false, false⟩
        "scale_service" false false)).length =
      (execActions (execute ⟨false, false, false, false⟩
        "scale_service" false false)).length :=
  C8_rollback_completeness ⟨false, false, false, false⟩ "scale_service"
    ⟨"scale_service", "medium", 4/10, [⟨"scale", 1⟩]⟩ rfl

end AthenAi
